import Mathlib

/-!
Shallow embedding of the Korean-chess (janggi) matchmaking and relay server
(src/main.go) together with proofs about its matchmaking dispatcher, room
lifecycle, waiting-loop timeout, and game relay.

Conventions of the embedding:
* Go machine integers are modelled as Int (board coordinates stay far from
  any overflow boundary, so no wrap-around modelling is needed).
* The global maps users (identity to waiting peer) and rooms (room id to
  room) are modelled by their key lists; a Go map insert keyed by an
  identity keeps the key set unchanged when the key is present.
* Mutable pointer state (user.room, room.Status, room.Users) is modelled by
  explicit state records threaded through the step functions.
* Nondeterministic Go map iteration order is fixed to insertion order; this
  is one admissible order, and comments note where a proved property is
  independent of the order chosen.
-/

namespace KoreanChess

/-- Go: type Move struct with Current and Previous, each a pair of ints
    (src/main.go lines 82-85). -/
structure Move where
  current : Int × Int
  previous : Int × Int
deriving Repr, DecidableEq

/-- Go: type Game struct with a Move, a turn counter, an over flag and a
    timestamp (src/main.go lines 75-80).  The timestamp is carried as an
    integer tick count. -/
structure Game where
  move : Move
  turn : Int
  over : Bool
  time : Int
deriving Repr, DecidableEq

/-- The payload slot of a Message (Go: interface, i.e. any marshallable
    value).  The server only ever sends a user view, a game, a room, or a
    raw byte string, so the payloads are enumerated. -/
inductive Payload where
  | game (g : Game)
  | roomDescr (id : String) (status : Int)
  | userView (id : String) (side : Int)
  | bytes (s : String)
deriving Repr, DecidableEq

/-- Go: type Message struct with Action and Msg (src/main.go lines 89-92);
    every outbound frame is one of these envelopes. -/
structure Message where
  action : String
  msg : Payload
deriving Repr, DecidableEq

/-- Go: makeMessage (src/main.go lines 289-300): wrap an action tag and a
    payload into one envelope.  JSON marshalling of internally controlled
    values cannot fail, so the embedding returns the envelope directly. -/
def makeMessage (action : String) (msg : Payload) : Message :=
  { action := action, msg := msg }

/-- Go: diagonalSymmetry (src/main.go lines 303-305): the board transform
    mapping a coordinate pair to its 180-degree rotation. -/
def diagonalSymmetry (x y : Int) : Int × Int :=
  (9 - x, 8 - y)

/-- A Room (src/main.go lines 70-74): id, two seats (nil until a peer
    acknowledges), and a status int (0 waiting, 1 playing, 2 finished).
    Seats hold the seated peer's identity. -/
structure Room where
  id : String
  seat0 : Option String
  seat1 : Option String
  status : Int
deriving Repr, DecidableEq

/-- The Room literal allocated by MatchUsersLogic (src/main.go lines
    222-226): constant id string, both seats empty, status 0.  The UUID
    generation announced by the comment above it is absent from the code. -/
def matchUsersLogicRoom : Room :=
  { id := "1", seat0 := none, seat1 := none, status := 0 }

/-- The seat-filling loop of the done-branch of matchMaking (src/main.go
    lines 156-161, executed under rwMutex): put the acknowledging peer into
    the first nil seat, leave the room unchanged when both seats are
    already taken. -/
def seatFill (r : Room) (uid : String) : Room :=
  if r.seat0 = none then { r with seat0 := some uid }
  else if r.seat1 = none then { r with seat1 := some uid }
  else r

/- ## Pairing dispatcher (matchUsers and MatchUsersLogic) -/

/-- One committed match: MatchUsersLogic (src/main.go lines 215-242) is
    invoked with the drained requester as user1 (given Side 8) and the
    scanned pool entry as user2 (given Side 16); it allocates a room, sets
    both peers' room references and sides, and sends each a matched
    envelope. -/
structure MatchRec where
  requester : String
  waiting : String
  room : Room
deriving Repr, DecidableEq

/-- Dispatcher state: the waiting pool (key list of the Go map users,
    src/main.go line 98, in insertion order) and the list of matches
    committed so far, in commit order. -/
structure DispatcherState where
  pool : List String
  committed : List MatchRec
deriving Repr, DecidableEq

/-- Go map insert users[uid] = user (src/main.go line 202) on the key
    list: inserting a present key overwrites the value and keeps the key
    set; a fresh key is appended. -/
def poolInsert (pool : List String) (uid : String) : List String :=
  if uid ∈ pool then pool else pool ++ [uid]

/-- One iteration of the scan loop of matchUsers (src/main.go lines
    204-210) at a given key of the map snapshot.  Go range over a map does
    not produce entries deleted before being reached, hence the membership
    test against the current pool.  When the key denotes another identity,
    MatchUsersLogic runs: the match is recorded and both identities are
    deleted from the pool (src/main.go lines 240-241). -/
def scanStep (uid : String) (st : DispatcherState) (key : String) : DispatcherState :=
  if key ∈ st.pool ∧ key ≠ uid then
    { pool := st.pool.filter (fun k => decide (¬ (k = uid ∨ k = key))),
      committed := st.committed ++ [{ requester := uid, waiting := key, room := matchUsersLogicRoom }] }
  else st

/-- Processing of one drained join request by matchUsers (src/main.go
    lines 200-210): insert the requester into the pool, then scan the keys
    present at the start of the range loop.  The scan order is fixed to
    insertion order; Go leaves it unspecified, and the proofs below never
    depend on the order because the pool never holds two waiting peers. -/
def processRequest (st : DispatcherState) (uid : String) : DispatcherState :=
  let pool1 := poolInsert st.pool uid
  pool1.foldl (scanStep uid) { pool := pool1, committed := st.committed }

/-- Run the dispatcher over a whole sequence of join requests (identities
    in arrival order), starting from the empty pool. -/
def runDispatcher (reqs : List String) : DispatcherState :=
  reqs.foldl processRequest { pool := [], committed := [] }

/-- Number of committed matches an identity takes part in. -/
def matchCount (ms : List MatchRec) (id : String) : Nat :=
  (ms.filter (fun m => decide (m.requester = id ∨ m.waiting = id))).length

/- ## The waiting loop of the done-branch (src/main.go lines 164-182) -/

/-- The deadline constant of the waiting loop, ten seconds in nanoseconds
    (Go durations are nanosecond counts). -/
def tenSecondsNanos : Int := 10 * 1000000000

/-- Possible observations of the waiting loop after some number of guard
    evaluations. -/
inductive WaitOutcome where
  | ready
  | closed
  | stillWaiting
deriving Repr, DecidableEq

/-- The waiting loop of matchMaking (src/main.go lines 166-172), unfolded
    guard evaluation by guard evaluation.  At the k-th evaluation the guard
    re-computes the Go expression pattern since(now), i.e. the duration
    between two instants captured back-to-back inside the same guard; its
    value at evaluation k is sinceVals k.  seats k tells whether both seats
    of the room are non-nil when the body checks them at iteration k.  A
    true guard with both seats filled jumps to RoomIsReady; a false guard
    falls through to the timeout branch that sets status 2 (lines
    179-181). -/
def waitLoop (sinceVals : Nat → Int) (seats : Nat → Bool) (k : Nat) : Nat → WaitOutcome
  | 0 => .stillWaiting
  | fuel + 1 =>
    if sinceVals k < tenSecondsNanos then
      if seats k then .ready else waitLoop sinceVals seats (k + 1) fuel
    else .closed

/- ## Game relay (GameCommunication, src/main.go lines 245-287) -/

/-- Deletion of a key from a Go map modelled on its key list (used for
    delete on the rooms map, src/main.go line 274). -/
def mapDelete (m : List String) (k : String) : List String :=
  m.filter (fun x => decide (x ≠ k))

/-- The state a relay loop reads and writes: the loop-persistent game
    variable declared once before the loop (src/main.go line 247), the
    room's status field, and the key list of the global rooms map. -/
structure RelayState where
  game : Game
  roomStatus : Int
  rooms : List String
deriving Repr, DecidableEq

/-- One frame arriving at a relay loop.  readError models a failed
    ReadMessage (src/main.go lines 253-257).  A data frame carries the
    result of json.Unmarshal into the game variable: some g on success,
    none when the body is malformed and the (ignored) error is returned
    with the target left unchanged. -/
inductive Frame where
  | readError
  | data (decoded : Option Game)
deriving Repr, DecidableEq

/-- The transform applied to the received move before forwarding
    (src/main.go lines 260-261): both coordinate pairs go through
    diagonalSymmetry; the other fields are untouched. -/
def transformGame (g : Game) : Game :=
  { g with move := { current := diagonalSymmetry g.move.current.1 g.move.current.2,
                     previous := diagonalSymmetry g.move.previous.1 g.move.previous.2 } }

/-- The forwarding fan-out (src/main.go lines 263-267): every seat whose
    identity differs from the sender's receives the move envelope.
    roomUsers lists the identities seated in room.Users. -/
def forwardMove (roomUsers : List String) (senderId : String) (g : Game) :
    List (String × Message) :=
  (roomUsers.filter (fun uid => decide (senderId ≠ uid))).map
    (fun uid => (uid, makeMessage "move" (Payload.game g)))

/-- The game-over fan-out (src/main.go lines 275-283): each seat is
    visited; a seat other than the sender is written its end envelope, and
    the sender's own seat is written the sender's end envelope. -/
def endMessages (roomUsers : List String) (senderId : String) :
    List (String × Message) :=
  roomUsers.map (fun uid =>
    if senderId ≠ uid then (uid, makeMessage "end" (Payload.bytes "Game Over"))
    else (senderId, makeMessage "end" (Payload.bytes "Game Over")))

/-- Result of one iteration of a relay loop: either the loop continues
    with a new state after emitting some envelopes, or it returns. -/
inductive StepResult where
  | cont (st : RelayState) (out : List (String × Message))
  | exit (st : RelayState) (out : List (String × Message))
deriving Repr, DecidableEq

/-- One iteration of the relay loop of GameCommunication (src/main.go
    lines 252-286) for the given room seats, room id and sender.  A read
    error returns at once (line 256).  Otherwise the unmarshal result is
    folded into the persistent game variable (the error is ignored, line
    259, so a malformed frame leaves the previous contents in place), the
    coordinates are transformed, the move envelope is fanned out, and on
    over the room is closed (status 2), deleted from the rooms index, the
    end envelopes are fanned out, and the loop returns. -/
def relayStep (roomUsers : List String) (roomId senderId : String)
    (st : RelayState) : Frame → StepResult
  | .readError => .exit st []
  | .data d =>
    let g1 := match d with
      | some g => g
      | none => st.game
    let g2 := transformGame g1
    let outs := forwardMove roomUsers senderId g2
    if g2.over then
      .exit { game := g2, roomStatus := 2, rooms := mapDelete st.rooms roomId }
        (outs ++ endMessages roomUsers senderId)
    else
      .cont { st with game := g2 } outs

/-- Run a relay loop over a finite prefix of its incoming frames.  The
    third component tells whether the loop has returned; when the frame
    list is exhausted without a return, the loop is still blocked reading
    the next frame (third component false). -/
def relayRun (roomUsers : List String) (roomId senderId : String) :
    RelayState → List Frame → RelayState × List (String × Message) × Bool
  | st, [] => (st, [], false)
  | st, f :: fs =>
    match relayStep roomUsers roomId senderId st f with
    | .exit st1 out => (st1, out, true)
    | .cont st1 out =>
      let rest := relayRun roomUsers roomId senderId st1 fs
      (rest.1, out ++ rest.2.1, rest.2.2)

/- ## The global rooms index (src/main.go line 99) -/

/-- The statements of src/main.go that touch the global rooms map.  A scan
    of the source shows exactly two accesses: the initialisation to an
    empty map (line 99) and delete(rooms, room.ID) in the game-over branch
    (line 274); no statement inserts an entry. -/
inductive RoomsOp where
  | gameOverDelete (roomId : String)
deriving Repr, DecidableEq

/-- Effect of one rooms-map access on the key list of the map. -/
def roomsStep (m : List String) : RoomsOp → List String
  | .gameOverDelete rid => mapDelete m rid

/-- The key list of the rooms map after any sequence of accesses, starting
    from the empty map it is initialised to. -/
def runRooms (ops : List RoomsOp) : List String :=
  ops.foldl roomsStep []

/- ## The done-branch guard of matchMaking (src/main.go lines 143-151) -/

/-- What the handler does after reading the second client frame. -/
inductive DoneOutcome where
  | noDone
  | nilRoomReturn
  | proceed (r : Room)
deriving Repr, DecidableEq

/-- The done-branch of matchMaking (src/main.go lines 143-162): when the
    frame is not the literal done token the handler falls off the callback;
    on done with a nil room reference it prints and returns (line 150)
    without writing any envelope and without touching the users map; on
    done with a room it continues into the seat-filling section.  The
    returned components are the outcome, the envelopes written to this
    peer up to that point, and the waiting pool (untouched on every
    path of this section). -/
def doneHandler (msg uid : String) (userRoom : Option Room) (pool : List String) :
    DoneOutcome × List Message × List String :=
  if msg = "done" then
    match userRoom with
    | none => (.nilRoomReturn, [], pool)
    | some r => (.proceed (seatFill r uid), [], pool)
  else (.noDone, [], pool)

/- ## Interleaving of the two peer handlers with the relay (src/main.go lines 143-186 and 272-274) -/

/-- Program counter of one peer's handler task after it has read done and
    found its room reference set: it fills a seat (lines 155-162), spins
    until both seats are filled (lines 164-172), writes status 1 at
    RoomIsReady (line 184), and then enters the relay loop where the only
    modelled action is receiving a game-over frame that writes status 2
    (line 273). -/
inductive HPC where
  | fill
  | check
  | setActive
  | relay
  | finished
deriving Repr, DecidableEq

/-- Shared room plus the two handler tasks' program counters, and the
    history of writes to room.Status in program order. -/
structure SysState where
  room : Room
  pcA : HPC
  pcB : HPC
  statusWrites : List Int
deriving Repr, DecidableEq

/-- One step of a handler task: uid is the peer's identity, overFrame
    tells whether the next ReadMessage of this peer's relay loop delivers
    a frame whose over flag is true (a false value models a relay loop
    still blocked reading).  No lock protects the status writes in the
    source; only the seat fill runs under rwMutex, and it is atomic
    here. -/
def taskStep (uid : String) (overFrame : Bool) (pc : HPC) (r : Room)
    (writes : List Int) : HPC × Room × List Int :=
  match pc with
  | .fill => (.check, seatFill r uid, writes)
  | .check =>
    if r.seat0 ≠ none ∧ r.seat1 ≠ none then (.setActive, r, writes)
    else (.check, r, writes)
  | .setActive => (.relay, { r with status := 1 }, writes ++ [1])
  | .relay =>
    if overFrame then (.finished, { r with status := 2 }, writes ++ [2])
    else (.relay, r, writes)
  | .finished => (.finished, r, writes)

/-- One scheduler step: true runs task A (identity u1, whose relay loop
    receives a game-over frame), false runs task B (identity u2, whose
    relay loop stays blocked). -/
def sysStep (s : SysState) (chooseA : Bool) : SysState :=
  if chooseA then
    let r := taskStep "u1" true s.pcA s.room s.statusWrites
    { s with pcA := r.1, room := r.2.1, statusWrites := r.2.2 }
  else
    let r := taskStep "u2" false s.pcB s.room s.statusWrites
    { s with pcB := r.1, room := r.2.1, statusWrites := r.2.2 }

/-- Both peers have read done on the room freshly allocated by
    MatchUsersLogic and are about to fill their seats. -/
def sysInit : SysState :=
  { room := matchUsersLogicRoom, pcA := .fill, pcB := .fill, statusWrites := [] }

/-- Run a concrete schedule of handler steps. -/
def execSchedule (sched : List Bool) : SysState :=
  sched.foldl sysStep sysInit

/- ## Dispatcher invariant -/

/-- Invariant of the dispatcher relative to the list of identities seen so
    far: the pool holds at most one waiting peer, every pooled or matched
    identity has been seen, matched pairs are distinct identities seated in
    the room literal of MatchUsersLogic, no identity is in more than one
    match, and a pooled identity is in none. -/
def DispInv (st : DispatcherState) (seen : List String) : Prop :=
  st.pool.length ≤ 1 ∧
  (∀ k ∈ st.pool, k ∈ seen) ∧
  (∀ m ∈ st.committed,
    m.requester ∈ seen ∧ m.waiting ∈ seen ∧ m.requester ≠ m.waiting ∧
      m.room = matchUsersLogicRoom) ∧
  (∀ id, matchCount st.committed id ≤ 1) ∧
  (∀ k ∈ st.pool, matchCount st.committed k = 0)

lemma matchCount_append_single (ms : List MatchRec) (m : MatchRec) (id : String) :
    matchCount (ms ++ [m]) id =
      matchCount ms id + (if m.requester = id ∨ m.waiting = id then 1 else 0) := by
  by_cases h : m.requester = id ∨ m.waiting = id <;>
    simp [matchCount, List.filter_append, h]

lemma matchCount_eq_zero (ms : List MatchRec) (id : String)
    (h : ∀ m ∈ ms, ¬ (m.requester = id ∨ m.waiting = id)) :
    matchCount ms id = 0 := by
  simp only [matchCount, List.length_eq_zero, List.filter_eq_nil_iff]
  intro m hm
  simpa using h m hm

lemma processRequest_pool_nil (ms : List MatchRec) (uid : String) :
    processRequest { pool := [], committed := ms } uid =
      { pool := [uid], committed := ms } := by
  simp [processRequest, poolInsert, scanStep]

lemma processRequest_pool_single (w uid : String) (ms : List MatchRec) (h : uid ≠ w) :
    processRequest { pool := [w], committed := ms } uid =
      { pool := [],
        committed :=
          ms ++ [{ requester := uid, waiting := w, room := matchUsersLogicRoom }] } := by
  have h2 : w ≠ uid := Ne.symm h
  simp [processRequest, poolInsert, scanStep, h, h2]

lemma dispInv_step (st : DispatcherState) (seen : List String) (uid : String)
    (hinv : DispInv st seen) (hfresh : uid ∉ seen) :
    DispInv (processRequest st uid) (uid :: seen) := by
  obtain ⟨pool, ms⟩ := st
  obtain ⟨hlen, hpool, hms, hcount, hzero⟩ := hinv
  have hmsWeak : ∀ m ∈ ms,
      m.requester ∈ uid :: seen ∧ m.waiting ∈ uid :: seen ∧
        m.requester ≠ m.waiting ∧ m.room = matchUsersLogicRoom := by
    intro m hm
    obtain ⟨h1, h2, h3, h4⟩ := hms m hm
    exact ⟨List.mem_cons_of_mem _ h1, List.mem_cons_of_mem _ h2, h3, h4⟩
  have hfreshCount : matchCount ms uid = 0 := by
    apply matchCount_eq_zero
    intro m hm
    obtain ⟨h1, h2, _, _⟩ := hms m hm
    rintro (rfl | rfl)
    · exact hfresh h1
    · exact hfresh h2
  match pool, hlen with
  | [], _ =>
    rw [processRequest_pool_nil]
    refine ⟨by simp, by simp, hmsWeak, hcount, ?_⟩
    intro k hk
    have hk1 : k = uid := by simpa using hk
    subst hk1
    exact hfreshCount
  | [w], _ =>
    have hw : w ∈ seen := hpool w (by simp)
    have hne : uid ≠ w := fun e => hfresh (e ▸ hw)
    rw [processRequest_pool_single w uid ms hne]
    refine ⟨by simp, by simp, ?_, ?_, by simp⟩
    · intro m hm
      rcases List.mem_append.mp hm with hm1 | hm2
      · exact hmsWeak m hm1
      · have hm3 : m = { requester := uid, waiting := w, room := matchUsersLogicRoom } := by
          simpa using hm2
        subst hm3
        exact ⟨List.mem_cons_self _ _, List.mem_cons_of_mem _ hw, hne, rfl⟩
    · intro id
      rw [matchCount_append_single]
      by_cases hid : (uid = id ∨ w = id)
      · rw [if_pos hid]
        have hzid : matchCount ms id = 0 := by
          rcases hid with rfl | rfl
          · exact hfreshCount
          · exact hzero w (by simp)
        omega
      · rw [if_neg hid]
        simpa using hcount id
  | w :: x :: t, hlen => simp at hlen

lemma dispInv_run (reqs : List String) :
    ∀ (st : DispatcherState) (seen : List String), DispInv st seen → reqs.Nodup →
      (∀ r ∈ reqs, r ∉ seen) →
      DispInv (reqs.foldl processRequest st) (reqs.reverse ++ seen) := by
  induction reqs with
  | nil =>
    intro st seen h _ _
    simpa using h
  | cons u t ih =>
    intro st seen h hnd hfr
    have h1 : DispInv (processRequest st u) (u :: seen) :=
      dispInv_step st seen u h (hfr u (by simp))
    have hnd1 : t.Nodup := (List.nodup_cons.mp hnd).2
    have hnotu : u ∉ t := (List.nodup_cons.mp hnd).1
    have hfr1 : ∀ r ∈ t, r ∉ u :: seen := by
      intro r hr
      rw [List.mem_cons]
      rintro (rfl | hseen)
      · exact hnotu hr
      · exact hfr r (List.mem_cons_of_mem _ hr) hseen
    have := ih (processRequest st u) (u :: seen) h1 hnd1 hfr1
    simpa [List.append_assoc] using this

/- ## Concrete instances used by closed statements -/

/-- The spec's concrete scenario move: current (9,0), previous (8,0). -/
def gC3 : Game :=
  { move := { current := (9, 0), previous := (8, 0) }, turn := 0,
    over := false, time := 0 }

/-- A relay-loop state of an Active room before the scenario move. -/
def stC3 : RelayState :=
  { game := { move := { current := (0, 0), previous := (0, 0) }, turn := 0,
              over := false, time := 0 },
    roomStatus := 1, rooms := [] }

/-- A frame whose decoded over flag is true. -/
def overGameC5 : Game :=
  { move := { current := (0, 0), previous := (0, 0) }, turn := 0,
    over := true, time := 0 }

/-- An ordinary in-flight frame with the over flag false. -/
def quietGameC5 : Game :=
  { move := { current := (1, 1), previous := (2, 1) }, turn := 0,
    over := false, time := 0 }

/-- A relay-loop state of an Active room. -/
def stC5 : RelayState :=
  { game := { move := { current := (0, 0), previous := (0, 0) }, turn := 0,
              over := false, time := 0 },
    roomStatus := 1, rooms := [] }

/-- The persistent game variable after the valid scenario move has been
    relayed: it holds the transformed copy of that move. -/
def staleGameC8 : Game :=
  transformGame { move := { current := (9, 0), previous := (8, 0) }, turn := 1,
                  over := false, time := 0 }

/-- Relay-loop state right after relaying the valid scenario move. -/
def stC8 : RelayState :=
  { game := staleGameC8, roomStatus := 1, rooms := [] }

/- ## Claim theorems -/

/-- Claim C1: for every sequence of join requests with pairwise-distinct
    identities processed by the pairing dispatcher, no identity is matched
    into more than one Room (its room reference and side are assigned by at
    most one MatchUsersLogic invocation), each committed pair consists of
    two distinct identities, and filling the two seats of the allocated
    room with the matched pair, in either acknowledgment order, leaves the
    two seats holding distinct identities. -/
theorem C1_match_unique_and_seats_distinct (reqs : List String) (h : reqs.Nodup) :
    (∀ id, matchCount (runDispatcher reqs).committed id ≤ 1) ∧
    (∀ m ∈ (runDispatcher reqs).committed,
      m.requester ≠ m.waiting ∧
      (seatFill (seatFill m.room m.requester) m.waiting).seat0 ≠
        (seatFill (seatFill m.room m.requester) m.waiting).seat1 ∧
      (seatFill (seatFill m.room m.waiting) m.requester).seat0 ≠
        (seatFill (seatFill m.room m.waiting) m.requester).seat1) := by
  have hinit : DispInv { pool := [], committed := [] } [] := by
    refine ⟨by simp, by simp, by simp, ?_, by simp⟩
    intro id
    simp [matchCount]
  have hinv := dispInv_run reqs { pool := [], committed := [] } [] hinit h (by simp)
  obtain ⟨-, -, hms, hcount, -⟩ := hinv
  refine ⟨fun id => hcount id, ?_⟩
  intro m hm
  obtain ⟨-, -, hneq, hroom⟩ := hms m hm
  refine ⟨hneq, ?_, ?_⟩
  · rw [hroom]
    simpa [seatFill, matchUsersLogicRoom] using hneq
  · rw [hroom]
    simpa [seatFill, matchUsersLogicRoom] using Ne.symm hneq

/-- Closed instance of claim C1 at the request sequence u1, u2. -/
theorem C1_match_unique_and_seats_distinct_witness :
    (["u1", "u2"] : List String).Nodup ∧
    matchCount (runDispatcher ["u1", "u2"]).committed "u1" ≤ 1 :=
  ⟨by decide, (C1_match_unique_and_seats_distinct ["u1", "u2"] (by decide)).1 "u1"⟩

/-- Claim C2 (refuted, code bug): the Closed-on-timeout branch of the
    waiting loop is unreachable.  The loop guard re-evaluates the duration
    between two instants captured back-to-back inside the very guard
    expression (src/main.go line 166); whenever every such duration is
    below ten seconds - which holds for adjacent instants on any real
    clock - the loop can only keep spinning or jump to RoomIsReady, so the
    room never transitions to Closed when the wall-clock deadline from
    match time elapses, and the handler never terminates its wait on an
    unfilled seat. -/
theorem C2_timeout_close_unreachable (sinceVals : Nat → Int) (seats : Nat → Bool)
    (h : ∀ k, sinceVals k < tenSecondsNanos) :
    ∀ k fuel, waitLoop sinceVals seats k fuel ≠ WaitOutcome.closed := by
  intro k fuel
  induction fuel generalizing k with
  | zero => simp [waitLoop]
  | succ n ih =>
    rw [waitLoop, if_pos (h k)]
    cases hs : seats k
    · simpa using ih (k + 1)
    · simp

/-- Closed instance of claim C2's theorem at a loop with zero measured
    durations, an always-unfilled seat, and fuel five. -/
theorem C2_timeout_close_unreachable_witness :
    (∀ k : Nat, (fun _ : Nat => (0 : Int)) k < tenSecondsNanos) ∧
    waitLoop (fun _ => 0) (fun _ => false) 0 5 ≠ WaitOutcome.closed :=
  ⟨by
    intro k
    show (0 : Int) < tenSecondsNanos
    decide,
   C2_timeout_close_unreachable _ _
    (by
      intro k
      show (0 : Int) < tenSecondsNanos
      decide) 0 5⟩

/-- Claim C3: a move frame decoded from one seat of an Active room with
    the over flag false produces exactly one move envelope, addressed to
    the other seat and never to the sender, whose coordinate pairs are the
    diagonalSymmetry transform of the received ones, and within the
    sender's relay loop this envelope precedes every envelope produced by
    later frames of the same sender. -/
theorem C3_move_forwarded_to_other_seat_only (a b rid : String) (hab : a ≠ b)
    (g : Game) (hover : g.over = false) (st : RelayState) (fs : List Frame) :
    relayStep [a, b] rid a st (Frame.data (some g)) =
      StepResult.cont { st with game := transformGame g }
        [(b, makeMessage "move" (Payload.game (transformGame g)))] ∧
    (transformGame g).move.current =
      diagonalSymmetry g.move.current.1 g.move.current.2 ∧
    (transformGame g).move.previous =
      diagonalSymmetry g.move.previous.1 g.move.previous.2 ∧
    relayRun [a, b] rid a st (Frame.data (some g) :: fs) =
      ((relayRun [a, b] rid a { st with game := transformGame g } fs).1,
        (b, makeMessage "move" (Payload.game (transformGame g))) ::
          (relayRun [a, b] rid a { st with game := transformGame g } fs).2.1,
        (relayRun [a, b] rid a { st with game := transformGame g } fs).2.2) := by
  have hov2 : (transformGame g).over = false := hover
  have hstep : relayStep [a, b] rid a st (Frame.data (some g)) =
      StepResult.cont { st with game := transformGame g }
        [(b, makeMessage "move" (Payload.game (transformGame g)))] := by
    simp [relayStep, forwardMove, hov2, hab]
  refine ⟨hstep, rfl, rfl, ?_⟩
  simp [relayRun, hstep]

/-- Closed instance of claim C3 at the spec's concrete scenario: seat u1
    sends current (9,0), previous (8,0); seat u2 alone receives the move
    envelope with current (0,8), previous (1,8). -/
theorem C3_move_forwarded_to_other_seat_only_witness :
    ("u1" : String) ≠ "u2" ∧ gC3.over = false ∧
    relayStep ["u1", "u2"] "1" "u1" stC3 (Frame.data (some gC3)) =
      StepResult.cont { stC3 with game := transformGame gC3 }
        [("u2", makeMessage "move" (Payload.game (transformGame gC3)))] ∧
    transformGame gC3 =
      { move := { current := (0, 8), previous := (1, 8) }, turn := 0,
        over := false, time := 0 } :=
  ⟨by decide, rfl,
    (C3_move_forwarded_to_other_seat_only "u1" "u2" "1" (by decide) gC3 rfl stC3 []).1,
    by decide⟩

/-- Claim C4: the board transform of src/main.go lines 303-305 is an
    involution on the 10-by-9 board. -/
theorem C4_diagonalSymmetry_involution (r c : Int) (_h0 : 0 ≤ r) (_h1 : r ≤ 9)
    (_h2 : 0 ≤ c) (_h3 : c ≤ 8) :
    diagonalSymmetry (diagonalSymmetry r c).1 (diagonalSymmetry r c).2 = (r, c) := by
  simp [diagonalSymmetry]

/-- Closed instance of claim C4 at the corner (9, 0). -/
theorem C4_diagonalSymmetry_involution_witness :
    (0 : Int) ≤ 9 ∧ (9 : Int) ≤ 9 ∧ (0 : Int) ≤ 0 ∧ (0 : Int) ≤ 8 ∧
    diagonalSymmetry (diagonalSymmetry 9 0).1 (diagonalSymmetry 9 0).2 = (9, 0) :=
  ⟨by decide, by decide, by decide, by decide,
    C4_diagonalSymmetry_involution 9 0 (by decide) (by decide) (by decide) (by decide)⟩

/-- Counterexample to claim C5 as stated: in the concrete room of seats
    u1 and u2, seat u1's relay loop receives an over frame and exits after
    closing the room, yet seat u2's relay loop - run on the state the
    closure left behind and fed a subsequent ordinary frame - has still
    not terminated: nothing in the code signals the opposite loop, which
    exits only on its own read error or its own over frame.  The claim's
    conjunct that both relay loops of the room terminate is therefore
    false. -/
theorem C5_both_loops_terminate_counterexample :
    (relayRun ["u1", "u2"] "1" "u1" stC5 [Frame.data (some overGameC5)]).2.2 = true ∧
    (relayRun ["u1", "u2"] "1" "u1" stC5 [Frame.data (some overGameC5)]).1.roomStatus = 2 ∧
    (relayRun ["u1", "u2"] "1" "u2"
        ((relayRun ["u1", "u2"] "1" "u1" stC5 [Frame.data (some overGameC5)]).1)
        [Frame.data (some quietGameC5)]).2.2 = false := by
  decide

/-- Claim C5 amended: when a relay loop receives a frame that decodes with
    the over flag true, it sets the room's status to Closed (2), deletes
    the room's id from the active-room index, sends an end envelope to both
    seats including the sender, and that relay loop terminates; the other
    seat's relay loop is not terminated by this event and keeps running as
    long as its own frames neither fail to read nor carry over. -/
theorem C5_over_closes_room_sender_loop_exits (a b rid : String) (hab : a ≠ b)
    (g : Game) (hover : g.over = true) (st stB : RelayState) (fsB : List Frame)
    (hB : ∀ f ∈ fsB, ∃ g0, f = Frame.data (some g0) ∧ g0.over = false) :
    relayStep [a, b] rid a st (Frame.data (some g)) =
      StepResult.exit
        { game := transformGame g, roomStatus := 2, rooms := mapDelete st.rooms rid }
        [(b, makeMessage "move" (Payload.game (transformGame g))),
          (a, makeMessage "end" (Payload.bytes "Game Over")),
          (b, makeMessage "end" (Payload.bytes "Game Over"))] ∧
    (relayRun [a, b] rid b stB fsB).2.2 = false := by
  have hov2 : (transformGame g).over = true := hover
  constructor
  · simp [relayStep, forwardMove, endMessages, hov2, hab]
  · induction fsB generalizing stB with
    | nil => rfl
    | cons f t ih =>
      obtain ⟨g0, rfl, hg0⟩ := hB f (List.mem_cons_self _ _)
      have hg2 : (transformGame g0).over = false := hg0
      have hstep : relayStep [a, b] rid b stB (Frame.data (some g0)) =
          StepResult.cont { stB with game := transformGame g0 }
            (forwardMove [a, b] b (transformGame g0)) := by
        simp [relayStep, hg2]
      have ht : ∀ f1 ∈ t, ∃ g1, f1 = Frame.data (some g1) ∧ g1.over = false :=
        fun f1 hf1 => hB f1 (List.mem_cons_of_mem _ hf1)
      simp only [relayRun, hstep]
      exact ih _ ht

/-- Closed instance of the amended claim C5: concrete room, one over frame
    on seat u1's loop, one ordinary pending frame on seat u2's loop. -/
theorem C5_over_closes_room_sender_loop_exits_witness :
    ("u1" : String) ≠ "u2" ∧ overGameC5.over = true ∧
    relayStep ["u1", "u2"] "1" "u1" stC5 (Frame.data (some overGameC5)) =
      StepResult.exit
        { game := transformGame overGameC5, roomStatus := 2,
          rooms := mapDelete stC5.rooms "1" }
        [("u2", makeMessage "move" (Payload.game (transformGame overGameC5))),
          ("u1", makeMessage "end" (Payload.bytes "Game Over")),
          ("u2", makeMessage "end" (Payload.bytes "Game Over"))] ∧
    (relayRun ["u1", "u2"] "1" "u2" stC5 [Frame.data (some quietGameC5)]).2.2 = false := by
  have h := C5_over_closes_room_sender_loop_exits "u1" "u2" "1" (by decide)
    overGameC5 rfl stC5 stC5 [Frame.data (some quietGameC5)]
    (by
      intro f hf
      have hf1 : f = Frame.data (some quietGameC5) := by simpa using hf
      exact ⟨quietGameC5, hf1, rfl⟩)
  exact ⟨by decide, rfl, h.1, h.2⟩

/-- Claim C6 (refuted, code bug): a reachable interleaving of the two peer
    handler tasks regresses the room status after Closed.  Schedule: task A
    fills its seat, task B fills its seat, task A passes the both-seats
    check, writes Active, and its relay loop receives a game-over frame
    writing Closed; only then does the delayed task B execute its own
    RoomIsReady write, putting the status back to Active.  The write
    history is 1, 2, 1 and the final status of the closed room is 1. -/
theorem C6_status_regresses_after_closed :
    (execSchedule [true, false, true, true, true, false, false]).statusWrites =
      [1, 2, 1] ∧
    (execSchedule [true, false, true, true, true, false, false]).room.status = 1 := by
  decide

/-- Claim C7 (refuted, code bug): the request sequence u1, u2, u3, u4
    drives two distinct invocations of the match procedure, and both
    allocated rooms carry the same constant id string: MatchUsersLogic
    hard-codes the id (src/main.go line 223) and the announced UUID
    generation is absent. -/
theorem C7_room_ids_all_constant :
    (runDispatcher ["u1", "u2", "u3", "u4"]).committed.map (fun m => m.room.id) =
      ["1", "1"] := by
  decide

/-- Claim C8 (refuted, code bug): a frame that fails to decode is not
    dropped.  The unmarshal error at src/main.go line 259 is ignored, so
    the loop re-transforms the stale contents of the persistent game
    variable and forwards them: after the valid move with current (9,0)
    and previous (8,0) has been relayed, a malformed frame from seat u1
    makes seat u2 receive one more move envelope, whose coordinates are
    the double transform - the sender's own original coordinates - rather
    than nothing. -/
theorem C8_malformed_frame_still_forwards :
    relayStep ["u1", "u2"] "1" "u1" stC8 (Frame.data none) =
      StepResult.cont { stC8 with game := transformGame staleGameC8 }
        [("u2", makeMessage "move" (Payload.game (transformGame staleGameC8)))] ∧
    (transformGame staleGameC8).move.current = (9, 0) ∧
    (transformGame staleGameC8).move.previous = (8, 0) := by
  decide

/-- Claim C9: no statement of the program inserts into the global rooms
    map, so after any sequence of accesses the map is empty and the delete
    performed when a game ends removes nothing. -/
theorem C9_rooms_index_always_empty (ops : List RoomsOp) :
    runRooms ops = [] ∧ ∀ rid, mapDelete (runRooms ops) rid = runRooms ops := by
  have h : ∀ l : List RoomsOp, runRooms l = [] := by
    intro l
    induction l with
    | nil => rfl
    | cons op t ih =>
      cases op with
      | gameOverDelete rid =>
        show List.foldl roomsStep (roomsStep [] (RoomsOp.gameOverDelete rid)) t = []
        exact ih
  refine ⟨h ops, fun rid => ?_⟩
  rw [h ops]
  rfl

/-- Claim C10: a peer that sends the ready token done while its room
    reference is still nil makes its handler return at once: no envelope
    of any kind is written to that peer and the waiting pool is left
    untouched. -/
theorem C10_done_with_nil_room_returns (msg uid : String) (pool : List String)
    (h : msg = "done") :
    doneHandler msg uid none pool = (DoneOutcome.nilRoomReturn, [], pool) := by
  subst h
  rfl

/-- Closed instance of claim C10 with peer u1 still pooled. -/
theorem C10_done_with_nil_room_returns_witness :
    ("done" : String) = "done" ∧
    doneHandler "done" "u1" none ["u1"] = (DoneOutcome.nilRoomReturn, [], ["u1"]) :=
  ⟨rfl, C10_done_with_nil_room_returns "done" "u1" ["u1"] rfl⟩

end KoreanChess
